import Mathlib

/-!
Shallow embedding of the conversational RAG pipeline of
`auto_get_arxiv_papers` (files `src/agents/conversation_manager.py` and
`src/agents/enhanced_qa_agent.py`), together with proofs settling the
behavioural claims about it.

Modelling conventions:
* Python dicts keyed by conversation id become an association list
  (`Store`), with dict assignment / deletion embedded as `Store.setKey` /
  `Store.eraseKey` (replace first binding, append new keys at the end).
* `datetime.now().isoformat()` is an opaque string supplied by the caller
  (`now`), and `uuid.uuid4()` an opaque fresh id (`newConvId`).
* Calls to the remote language model are modelled by their outcome, an
  `Except String String` (`Except.error` = the Python call raised, carrying
  the exception text; `Except.ok` = the returned message content).  The
  prompt strings sent to the model influence only the model's answer, which
  the outcome already encodes, so prompt construction is not re-modelled.
* Python floats are modelled by exact rationals; `f"{x:.1f}"` is embedded
  as decimal rounding half-to-even (`pyFormat1f`).
* Fields that a returned dict may or may not contain are `Option`-valued
  (`none` = the key is absent from the dict).
-/

namespace ArxivQA

/-- A citation entry as built by `EnhancedQAAgent._format_sources`. -/
structure Source where
  id : String
  title : String
  authors : String
  pdf_url : String
  published : String
  relevance : String
deriving Repr, DecidableEq

/-- A message stored in a conversation (`ConversationManager.add_message`
builds the dict `{'role', 'content', 'timestamp'}`, plus a `'sources'` key
for assistant messages when a non-empty source list is given). -/
structure Message where
  role : String
  content : String
  timestamp : String
  sources : Option (List Source) := none
deriving Repr, DecidableEq

/-- A conversation record as created by
`ConversationManager.create_conversation` (the unused `'context'` list is
omitted). -/
structure Conversation where
  id : String
  created_at : String
  messages : List Message
deriving Repr, DecidableEq

/-- `self.conversations`: a dict from conversation id to conversation,
embedded as an association list in insertion order. -/
abbrev Store := List (String × Conversation)

/-- Dict lookup `self.conversations.get(cid)`. -/
def Store.findConv : Store → String → Option Conversation
  | [], _ => none
  | (k, v) :: rest, cid => if k = cid then some v else Store.findConv rest cid

/-- Dict assignment `self.conversations[cid] = conv`: replace the binding if
the key is present, otherwise append it. -/
def Store.setKey : Store → String → Conversation → Store
  | [], cid, conv => [(cid, conv)]
  | (k, v) :: rest, cid, conv =>
    if k = cid then (cid, conv) :: rest else (k, v) :: Store.setKey rest cid conv

/-- Dict deletion `del self.conversations[cid]`. -/
def Store.eraseKey : Store → String → Store
  | [], _ => []
  | (k, v) :: rest, cid => if k = cid then rest else (k, v) :: Store.eraseKey rest cid

/-- `self.max_history_length = 10`. -/
def max_history_length : Nat := 10

/-- `self.max_context_length = 8000`. -/
def max_context_length : Nat := 8000

/-- `ConversationManager.create_conversation`: insert a fresh conversation
with an empty message list; `newId` stands for `str(uuid.uuid4())` and
`now` for `datetime.now().isoformat()`. -/
def create_conversation (s : Store) (newId now : String) : String × Store :=
  (newId, Store.setKey s newId { id := newId, created_at := now, messages := [] })

/-- Python truthiness of the `sources` argument: not `None` and not `[]`. -/
def sourcesTruthy : Option (List Source) → Bool
  | none => false
  | some l => !l.isEmpty

/-- The message dict built inside `add_message`: the `'sources'` key is set
only when `role == 'assistant' and sources`. -/
def mkMessage (role content now : String) (sources : Option (List Source)) : Message :=
  { role := role, content := content, timestamp := now,
    sources := if role = "assistant" ∧ sourcesTruthy sources then sources else none }

/-- The trimming step of `add_message`: when the list exceeds
`max_history_length * 2` entries, keep the slice `[-max_history_length*2:]`
(the most recent ones). -/
def trimMessages (msgs : List Message) : List Message :=
  if msgs.length > max_history_length * 2 then
    msgs.drop (msgs.length - max_history_length * 2)
  else msgs

/-- `ConversationManager.add_message`: returns `False` and leaves the store
untouched on an unknown id; otherwise appends the built message and trims. -/
def add_message (s : Store) (cid role content : String)
    (sources : Option (List Source)) (now : String) : Bool × Store :=
  match s.findConv cid with
  | none => (false, s)
  | some conv =>
    let msgs := trimMessages (conv.messages ++ [mkMessage role content now sources])
    (true, s.setKey cid { conv with messages := msgs })

/-- last `n` elements of a list (`l[-n:]` for `n > 0`; the whole list when
`l` has at most `n` elements). -/
def lastN (n : Nat) (l : List α) : List α := l.drop (l.length - n)

/-- `ConversationManager.get_conversation_history`; `max_length` is an
optional count, and Python's `if max_length:` is false for both `None`
and `0`. -/
def get_conversation_history (s : Store) (cid : String) (maxLength : Option Nat) :
    List Message :=
  match s.findConv cid with
  | none => []
  | some conv =>
    match maxLength with
    | some n => if n ≠ 0 then lastN n conv.messages else conv.messages
    | none => conv.messages

/-- A `{'role', 'content'}` dict sent to the language model. -/
structure CtxMsg where
  role : String
  content : String
deriving Repr, DecidableEq

/-- `ConversationManager._get_system_prompt`. -/
def system_prompt : String :=
  "你是一个专业的科研助理，擅长阅读和理解学术论文。\n你的任务是根据提供的论文摘要，准确、清晰地回答用户的问题。\n\n回答要求：\n1. 基于提供的论文内容回答，不要编造信息\n2. 如果论文中没有相关信息，请明确说明\n3. 使用中文回答\n4. 回答要专业但易懂\n5. 适当引用论文内容支持你的观点\n6. 保持对话的连贯性，记住之前的对话内容\n7. 如果用户询问之前提到过的内容，请参考对话历史"

/-- Projection of a stored message to the `{'role', 'content'}` dict that
`build_context_messages` emits. -/
def projCtx (m : Message) : CtxMsg := ⟨m.role, m.content⟩

/-- The history-selection loop of `build_context_messages`: walk the
reversed history, stop (`break`) at the first message whose content length
would push the running total over the budget, and `insert(0, ...)` each
accepted message so the result stays in chronological order. -/
def contextLoop (budget : Nat) : List Message → Nat → List CtxMsg → List CtxMsg
  | [], _, acc => acc
  | m :: rest, total, acc =>
    if total + m.content.length > budget then acc
    else contextLoop budget rest (total + m.content.length) (projCtx m :: acc)

/-- `ConversationManager.build_context_messages`. -/
def build_context_messages (s : Store) (cid : String) (include_system : Bool) :
    List CtxMsg :=
  match s.findConv cid with
  | none =>
    if include_system then [⟨"system", system_prompt⟩] else []
  | some conv =>
    (if include_system then [⟨"system", system_prompt⟩] else [])
      ++ contextLoop max_context_length conv.messages.reverse 0 []

/-- `ConversationManager.clear_conversation`. -/
def clear_conversation (s : Store) (cid : String) : Bool × Store :=
  match s.findConv cid with
  | none => (false, s)
  | some conv => (true, s.setKey cid { conv with messages := [] })

/-- `ConversationManager.delete_conversation`. -/
def delete_conversation (s : Store) (cid : String) : Bool × Store :=
  match s.findConv cid with
  | none => (false, s)
  | some _ => (true, s.eraseKey cid)

/-- The dict returned by `get_conversation_stats`. -/
structure Stats where
  total_messages : Nat
  user_messages : Nat
  assistant_messages : Nat
  created_at : String
  last_activity : String
deriving Repr, DecidableEq

/-- `ConversationManager.get_conversation_stats`. -/
def get_conversation_stats (s : Store) (cid : String) : Option Stats :=
  match s.findConv cid with
  | none => none
  | some conv =>
    some { total_messages := conv.messages.length,
           user_messages := (conv.messages.filter (fun m => m.role = "user")).length,
           assistant_messages :=
             (conv.messages.filter (fun m => m.role = "assistant")).length,
           created_at := conv.created_at,
           last_activity :=
             match conv.messages.getLast? with
             | some m => m.timestamp
             | none => conv.created_at }

/-! ## EnhancedQAAgent -/

/-- A retrieved candidate (the dicts returned by `indexing_agent.search`):
`metadata` fields are inlined, `distance` is `paper.get('distance')`
(`none` when the key is absent), modelled as an exact rational. -/
structure Candidate where
  id : String
  title : String
  authors : String
  categories : String
  pdf_url : String
  published : String
  document : String
  distance : Option ℚ := none
deriving Repr, DecidableEq

/-- Python `str.strip()` on a character list: drop whitespace from both
ends. -/
def pyStripChars (cs : List Char) : List Char :=
  ((cs.dropWhile Char.isWhitespace).reverse.dropWhile Char.isWhitespace).reverse

/-- Python `str.strip()`. -/
def pyStrip (s : String) : String := String.mk (pyStripChars s.data)

/-- Value of a non-empty all-digit string, accumulator style. -/
def digitsToNat : List Char → Nat → Nat
  | [], acc => acc
  | c :: cs, acc => digitsToNat cs (acc * 10 + (c.toNat - '0'.toNat))

/-- Parse a (stripped, unsigned) digit string; `none` when empty or any
character is not a digit. -/
def pyDigits? (cs : List Char) : Option Nat :=
  if cs ≠ [] ∧ cs.all Char.isDigit then some (digitsToNat cs 0) else none

/-- Python `int(s)`: strip whitespace, allow one optional sign, then a
non-empty digit string; anything else raises (here: `none`).  (Python
additionally accepts underscore digit separators and non-ASCII digits,
which no model response in this pipeline uses.) -/
def parsePyInt (s : String) : Option Int :=
  match pyStripChars s.data with
  | '-' :: rest => (pyDigits? rest).map (fun n => -(n : Int))
  | '+' :: rest => (pyDigits? rest).map (fun n => (n : Int))
  | cs => (pyDigits? cs).map (fun n => (n : Int))

/-- Python `s.split(',')`: split on every comma, keeping empty pieces. -/
def splitCommaChars : List Char → List Char → List (List Char)
  | [], acc => [acc.reverse]
  | c :: cs, acc =>
    if c = ',' then acc.reverse :: splitCommaChars cs []
    else splitCommaChars cs (c :: acc)

/-- Python `s.split(',')`. -/
def pySplitComma (s : String) : List String :=
  (splitCommaChars s.data []).map String.mk

/-- The list comprehension
`[int(x.strip()) - 1 for x in result.split(',')]`: it raises (here: `none`)
as soon as any token fails to parse.  (`int()` itself strips whitespace, so
the inner `.strip()` is subsumed by `parsePyInt`.) -/
def parseIndices (result : String) : Option (List Int) :=
  (pySplitComma result).mapM (fun x => (parsePyInt x).map (fun v => v - 1))

/-- `EnhancedQAAgent.rerank_results`.  `hasClient` is the truthiness of
`self.client`; `callResult` is the outcome of the rerank model call; the
query string only shapes the prompt, hence `_query`. -/
def rerank_results (hasClient : Bool) (callResult : Except String String)
    (_query : String) (candidates : List Candidate) (top_k : Nat) : List Candidate :=
  if hasClient = false ∨ candidates.length ≤ top_k then candidates.take top_k
  else
    match callResult with
    | Except.error _ => candidates.take top_k
    | Except.ok content =>
      let result := pyStrip content
      match parseIndices result with
      | none => candidates.take top_k
      | some indices =>
        let valid_indices :=
          indices.filter (fun i => decide (0 ≤ i) && decide (i < (candidates.length : Int)))
        if valid_indices.isEmpty = false then
          (valid_indices.filterMap (fun i => candidates[i.toNat]?)).take top_k
        else candidates.take top_k

/-- `EnhancedQAAgent.rewrite_query`: without a client return the question
as-is; a raised model call is caught and the question returned as-is; a
successful call returns the stripped response content.  The history used in
the prompt only shapes the model input, which `callResult` already
encodes. -/
def rewrite_query (hasClient : Bool) (callResult : Except String String)
    (original_query : String) : String :=
  if hasClient = false then original_query
  else
    match callResult with
    | Except.error _ => original_query
    | Except.ok content => pyStrip content

/-- `EnhancedQAAgent._build_context`: per-candidate section with the
document truncated to 1500 characters, sections joined by blank lines. -/
def build_context (papers : List Candidate) : String :=
  String.intercalate "\n\n" <| papers.enum.map fun p =>
    let doc := if p.2.document.length > 1500 then p.2.document.take 1500 ++ "..." else p.2.document
    "[论文 " ++ toString (p.1 + 1) ++ "]\n标题: " ++ p.2.title ++ "\n作者: " ++ p.2.authors
      ++ "\n分类: " ++ p.2.categories ++ "\n内容: " ++ doc ++ "\n"

/-- Round a rational to the nearest integer, ties to even (the rounding of
Python's fixed-point float formatting, idealised over exact rationals).
Stated on the numerator/denominator so it evaluates by integer arithmetic:
`f = ⌊q⌋` (Euclidean division by the positive denominator) and the
fractional part `q - f = rnum / q.den` is compared with `1/2` by
cross-multiplication. -/
def roundHalfEven (q : ℚ) : ℤ :=
  let f : ℤ := q.num.ediv (q.den : ℤ)
  let rnum : ℤ := q.num - f * (q.den : ℤ)
  if 2 * rnum < (q.den : ℤ) then f
  else if (q.den : ℤ) < 2 * rnum then f + 1
  else if f % 2 = 0 then f else f + 1

/-- Python `f"{x:.1f}"` over the exact-rational model of the float `x`:
round `10·x` half-to-even to an integer and print it with the decimal
point restored (`10·x` is formed on the numerator so the computation stays
in integer arithmetic). -/
def pyFormat1f (x : ℚ) : String :=
  let n : ℤ := roundHalfEven (mkRat (10 * x.num) x.den)
  let sign := if n < 0 then "-" else ""
  let m := n.natAbs
  sign ++ toString (m / 10) ++ "." ++ toString (m % 10)

/-- `EnhancedQAAgent._format_sources`.  The relevance branch embeds
`if paper.get('distance')`: Python truthiness, which is false both when the
key is absent and when the distance is `0.0`. -/
def format_sources (papers : List Candidate) : List Source :=
  papers.map fun paper =>
    { id := paper.id, title := paper.title, authors := paper.authors,
      pdf_url := paper.pdf_url, published := paper.published,
      relevance :=
        match paper.distance with
        | none => "N/A"
        | some d => if d = 0 then "N/A" else pyFormat1f ((1 - d) * 100) ++ "%" }

/-- The environment of one `answer` / `answer_stream` invocation: service
availability flags and the outcomes of the external calls made during it.
`searchResult` is the outcome of `indexing_agent.search` (`Except.error` =
it raised); `chatResult` the outcome of the final non-streaming completion;
`chatChunks`/`chatStreamError` describe the streaming completion: the delta
contents yielded before the stream either ends (`none`) or raises
(`some e`), with `""` standing for a `None`-or-empty delta. -/
structure AgentEnv where
  hasClient : Bool
  indexAvailable : Bool
  rewriteResult : Except String String
  searchResult : Except String (List Candidate)
  rerankResult : Except String String
  chatResult : Except String String
  chatChunks : List String
  chatStreamError : Option String
  newConvId : String
  now : String
deriving Repr

/-- The dict returned by `EnhancedQAAgent.answer`; a `none` field means the
key is absent from the dict.  `rewritten_query` may be present with value
`None` (`some none`). -/
structure AnswerResult where
  answer : String
  sources : List Source
  conversation_id : Option String
  rewritten_query : Option (Option String)
  error : Option String
deriving Repr, DecidableEq

/-- The fixed apology answer of the no-candidates path of `answer`. -/
def apologyMessage : String :=
  "抱歉，我没有找到相关的论文。请尝试换个方式提问，或者先添加一些相关主题的论文。"

/-- The `except` handler at the bottom of `answer`: record the question and
an error answer in the conversation (the local `conversation_id` is always
set by the time an exception can escape the earlier steps) and return an
error dict that does carry `conversation_id`. -/
def answerExceptPath (env : AgentEnv) (s : Store) (cid question e : String) :
    AnswerResult × Store :=
  let error_answer := "❌ 生成答案时出错: " ++ e
  let s2 := (add_message s cid "user" question none env.now).2
  let s3 := (add_message s2 cid "assistant" error_answer none env.now).2
  ({ answer := error_answer, sources := [], conversation_id := some cid,
     rewritten_query := none, error := some e }, s3)

/-- `EnhancedQAAgent.answer`.  `searchResult` stands for
`indexing_agent.search(search_query, top_k=top_k * 2)`. -/
def answer (env : AgentEnv) (s : Store) (question : String)
    (conversation_id : Option String) (top_k : Nat)
    (enable_rewrite enable_rerank : Bool) : AnswerResult × Store :=
  if env.hasClient = false then
    ({ answer := "❌ 问答服务不可用，请配置 MS_API_KEY", sources := [],
       conversation_id := none, rewritten_query := none,
       error := some "LLM service unavailable" }, s)
  else if env.indexAvailable = false then
    ({ answer := "❌ 检索服务不可用，请先建立论文索引", sources := [],
       conversation_id := none, rewritten_query := none,
       error := some "Indexing service unavailable" }, s)
  else
    let (cid, s1) :=
      match conversation_id with
      | some c => (c, s)
      | none => create_conversation s env.newConvId env.now
    let search_query :=
      if enable_rewrite then rewrite_query env.hasClient env.rewriteResult question
      else question
    match env.searchResult with
    | Except.error e => answerExceptPath env s1 cid question e
    | Except.ok relevant_papers =>
      if relevant_papers.isEmpty then
        let s2 := (add_message s1 cid "user" question none env.now).2
        let s3 := (add_message s2 cid "assistant" apologyMessage none env.now).2
        ({ answer := apologyMessage, sources := [], conversation_id := some cid,
           rewritten_query := none, error := some "No relevant papers found" }, s3)
      else
        let papers :=
          if enable_rerank ∧ relevant_papers.length > top_k then
            rerank_results env.hasClient env.rerankResult question relevant_papers top_k
          else relevant_papers.take top_k
        match env.chatResult with
        | Except.error e => answerExceptPath env s1 cid question e
        | Except.ok ans =>
          let s2 := (add_message s1 cid "user" question none env.now).2
          let s3 :=
            (add_message s2 cid "assistant" ans (some (format_sources papers)) env.now).2
          ({ answer := ans, sources := format_sources papers,
             conversation_id := some cid,
             rewritten_query := if enable_rewrite then some (some search_query) else some none,
             error := none }, s3)

/-- An event yielded by `answer_stream`; the `sources` event also carries
the conversation id, the others do not. -/
inductive Event where
  | sources (content : List Source) (conversation_id : String)
  | answer (content : String)
  | error (content : String)
deriving Repr, DecidableEq

/-- `EnhancedQAAgent.answer_stream`, as the full list of yielded events
paired with the final store.  `searchResult` here stands for
`indexing_agent.search(search_query, top_k=top_k)` (no over-fetch on this
path); a chunk whose delta is `None` or `""` is skipped by `if content:`;
an exception anywhere inside the `try` is caught by the trailing `except`,
which yields one final `error` event. -/
def answer_stream (env : AgentEnv) (s : Store) (question : String)
    (conversation_id : Option String) (_top_k : Nat) : List Event × Store :=
  if env.hasClient = false ∨ env.indexAvailable = false then
    ([Event.error "服务不可用"], s)
  else
    let (cid, s1) :=
      match conversation_id with
      | some c => (c, s)
      | none => create_conversation s env.newConvId env.now
    let _search_query := rewrite_query env.hasClient env.rewriteResult question
    match env.searchResult with
    | Except.error e => ([Event.error e], s1)
    | Except.ok relevant_papers =>
      if relevant_papers.isEmpty then
        ([Event.error "没有找到相关论文"], s1)
      else
        let sources := format_sources relevant_papers
        let answered := env.chatChunks.filter (fun c => decide (c ≠ ""))
        let answerEvents := answered.map Event.answer
        let full_answer := String.join answered
        match env.chatStreamError with
        | some e =>
          (Event.sources sources cid :: answerEvents ++ [Event.error e], s1)
        | none =>
          let s2 := (add_message s1 cid "user" question none env.now).2
          let s3 :=
            (add_message s2 cid "assistant" full_answer (some sources) env.now).2
          (Event.sources sources cid :: answerEvents, s3)

/-! ## Store and list helper lemmas -/

theorem Store.findConv_setKey_self (s : Store) (cid : String) (conv : Conversation) :
    (s.setKey cid conv).findConv cid = some conv := by
  induction s with
  | nil => simp [Store.setKey, Store.findConv]
  | cons p rest ih =>
    obtain ⟨k, v⟩ := p
    by_cases h : k = cid
    · simp [Store.setKey, Store.findConv, h]
    · simp [Store.setKey, Store.findConv, h, ih]

theorem Store.findConv_setKey_ne (s : Store) (cid k : String) (conv : Conversation)
    (h : k ≠ cid) : (s.setKey cid conv).findConv k = s.findConv k := by
  induction s with
  | nil => simp [Store.setKey, Store.findConv, Ne.symm h]
  | cons p rest ih =>
    obtain ⟨k', v⟩ := p
    by_cases h' : k' = cid
    · subst h'
      simp [Store.setKey, Store.findConv, Ne.symm h]
    · simp only [Store.setKey, if_neg h']
      by_cases h'' : k' = k
      · simp [Store.findConv, h'']
      · simp [Store.findConv, h'', ih]

theorem lastN_length_le (n : Nat) (l : List α) : (lastN n l).length ≤ n := by
  simp only [lastN, List.length_drop]; omega

theorem lastN_of_length_le {n : Nat} {l : List α} (h : l.length ≤ n) :
    lastN n l = l := by
  simp [lastN, Nat.sub_eq_zero_of_le h]

theorem trimMessages_eq_lastN (msgs : List Message) :
    trimMessages msgs = lastN (max_history_length * 2) msgs := by
  unfold trimMessages
  split
  · rfl
  · next h => exact (lastN_of_length_le (by omega)).symm

theorem lastN_append_absorb (n : Nat) (l r : List α) :
    lastN n (lastN n l ++ r) = lastN n (l ++ r) := by
  unfold lastN
  by_cases h : l.length ≤ n
  · rw [Nat.sub_eq_zero_of_le h, List.drop_zero]
  · push_neg at h
    have hlen : (l.drop (l.length - n)).length = n := by
      rw [List.length_drop]; omega
    rw [List.length_append, List.length_append, hlen,
        List.drop_append_eq_append_drop, List.drop_append_eq_append_drop,
        List.drop_drop]
    congr 2
    · omega
    · rw [hlen]; omega

/-! ## C1: bounded, recency-preserving history -/

/-- The arguments of one `add_message` call. -/
structure AddInput where
  role : String
  content : String
  sources : Option (List Source)
  now : String
deriving Repr

/-- The stored message an `add_message` call with these arguments builds. -/
def mkMsgOf (a : AddInput) : Message := mkMessage a.role a.content a.now a.sources

/-- A sequence of `add_message` calls against one conversation id. -/
def add_message_seq (s : Store) (cid : String) (adds : List AddInput) : Store :=
  adds.foldl (fun st a => (add_message st cid a.role a.content a.sources a.now).2) s

theorem add_message_seq_invariant :
    ∀ (adds : List AddInput) (s : Store) (cid : String) (conv : Conversation),
    s.findConv cid = some conv → conv.messages.length ≤ max_history_length * 2 →
    ∃ conv', (add_message_seq s cid adds).findConv cid = some conv' ∧
      conv'.messages = lastN (max_history_length * 2) (conv.messages ++ adds.map mkMsgOf) ∧
      conv'.id = conv.id ∧ conv'.created_at = conv.created_at := by
  intro adds
  induction adds with
  | nil =>
    intro s cid conv h hlen
    refine ⟨conv, ?_, ?_, rfl, rfl⟩
    · simpa [add_message_seq] using h
    · rw [List.map_nil, List.append_nil, lastN_of_length_le hlen]
  | cons a rest ih =>
    intro s cid conv h hlen
    have hstep : add_message_seq s cid (a :: rest) =
        add_message_seq
          (s.setKey cid { conv with
            messages := trimMessages (conv.messages ++ [mkMsgOf a]) }) cid rest := by
      simp [add_message_seq, add_message, h, mkMsgOf]
    rw [hstep]
    obtain ⟨conv', h1, h2, h3, h4⟩ :=
      ih (s.setKey cid { conv with
            messages := trimMessages (conv.messages ++ [mkMsgOf a]) }) cid
        { conv with messages := trimMessages (conv.messages ++ [mkMsgOf a]) }
        (Store.findConv_setKey_self ..)
        (by rw [trimMessages_eq_lastN]; exact lastN_length_le ..)
    refine ⟨conv', h1, ?_, h3, h4⟩
    rw [h2]
    show lastN _ (trimMessages (conv.messages ++ [mkMsgOf a]) ++ rest.map mkMsgOf) = _
    rw [trimMessages_eq_lastN, lastN_append_absorb, List.append_assoc]
    rfl

/-- C1: starting from a conversation with an empty history (as
`create_conversation` makes it), after any sequence of `add_message` calls
the stored message list is exactly the last `2 × max_history_length`
(= 20 by default) of the appended messages — most recent ones kept, append
order preserved, oldest discarded — so its length never exceeds
`2 × max_history_length`. -/
theorem add_message_history_invariant (s : Store) (cid : String) (conv : Conversation)
    (adds : List AddInput)
    (h : s.findConv cid = some conv) (h0 : conv.messages = []) :
    ∃ conv', (add_message_seq s cid adds).findConv cid = some conv' ∧
      conv'.messages = lastN (max_history_length * 2) (adds.map mkMsgOf) ∧
      conv'.messages.length ≤ max_history_length * 2 ∧
      max_history_length * 2 = 20 := by
  obtain ⟨conv', h1, h2, h3, h4⟩ :=
    add_message_seq_invariant adds s cid conv h (by simp [h0])
  rw [h0, List.nil_append] at h2
  exact ⟨conv', h1, h2, h2 ▸ lastN_length_le .., rfl⟩

/-- Witness for C1 at a concrete store: one conversation, three appends,
history equals all three messages (3 ≤ 20). -/
def convW1 : Conversation := { id := "conv-1", created_at := "t0", messages := [] }

def storeW1 : Store := [("conv-1", convW1)]

def addsW1 : List AddInput :=
  [⟨"user", "hi", none, "t1"⟩, ⟨"assistant", "hello", none, "t2"⟩,
   ⟨"user", "again", none, "t3"⟩]

theorem add_message_history_invariant_witness :
    storeW1.findConv "conv-1" = some convW1 ∧ convW1.messages = [] ∧
    ∃ conv', (add_message_seq storeW1 "conv-1" addsW1).findConv "conv-1" = some conv' ∧
      conv'.messages = lastN (max_history_length * 2) (addsW1.map mkMsgOf) ∧
      conv'.messages.length ≤ max_history_length * 2 ∧
      max_history_length * 2 = 20 :=
  ⟨by decide, rfl,
   add_message_history_invariant storeW1 "conv-1" convW1 addsW1 (by decide) rfl⟩

/-! ## C3: bounded context window -/

/-- Total content length of a list of stored messages. -/
def msgsLen (l : List Message) : Nat := (l.map (fun m => m.content.length)).sum

theorem trimMessages_of_length_le {msgs : List Message}
    (h : msgs.length ≤ max_history_length * 2) : trimMessages msgs = msgs := by
  rw [trimMessages_eq_lastN]; exact lastN_of_length_le h

theorem contextLoop_spec (b : Nat) :
    ∀ (l : List Message) (t : Nat) (acc : List CtxMsg), t ≤ b →
    ∃ p q, l = p ++ q ∧
      contextLoop b l t acc = (p.map projCtx).reverse ++ acc ∧
      t + msgsLen p ≤ b ∧
      (q = [] ∨ ∃ m q', q = m :: q' ∧ t + msgsLen p + m.content.length > b) := by
  intro l
  induction l with
  | nil =>
    intro t acc ht
    exact ⟨[], [], rfl, rfl, by simpa [msgsLen], Or.inl rfl⟩
  | cons m rest ih =>
    intro t acc ht
    by_cases hov : t + m.content.length > b
    · refine ⟨[], m :: rest, rfl, ?_, by simpa [msgsLen], ?_⟩
      · simp [contextLoop, hov]
      · exact Or.inr ⟨m, rest, rfl, by simpa [msgsLen]⟩
    · push_neg at hov
      obtain ⟨p', q', hl, hloop, hsum, hq⟩ := ih (t + m.content.length) (projCtx m :: acc) hov
      refine ⟨m :: p', q', by rw [hl, List.cons_append], ?_, ?_, ?_⟩
      · rw [contextLoop, if_neg (by omega), hloop]
        simp [List.append_assoc]
      · simp only [msgsLen, List.map_cons, List.sum_cons] at hsum ⊢
        omega
      · rcases hq with hq | ⟨m', q'', hq, hover⟩
        · exact Or.inl hq
        · refine Or.inr ⟨m', q'', hq, ?_⟩
          simp only [msgsLen, List.map_cons, List.sum_cons] at hover ⊢
          omega

/-- C3: for every stored conversation, `build_context_messages` returns the
optional system prompt followed by a suffix of the history projected to
`{'role','content'}` — i.e. the selected messages in chronological order —
whose cumulative content length never exceeds `max_context_length`
(default 8000); the walk from the most recent message backwards stops at
the first message that would overflow the remaining budget (when any
history message is excluded, the newest excluded one would overflow). -/
theorem build_context_messages_budget (s : Store) (cid : String) (conv : Conversation)
    (include_system : Bool) (h : s.findConv cid = some conv) :
    ∃ older sel,
      conv.messages = older ++ sel ∧
      build_context_messages s cid include_system =
        (if include_system then [⟨"system", system_prompt⟩] else []) ++ sel.map projCtx ∧
      msgsLen sel ≤ max_context_length ∧
      (older = [] ∨ ∃ older' m, older = older' ++ [m] ∧
        msgsLen sel + m.content.length > max_context_length) := by
  obtain ⟨p, q, hl, hloop, hsum, hq⟩ :=
    contextLoop_spec max_context_length conv.messages.reverse 0 [] (Nat.zero_le _)
  have hmsgs : conv.messages = q.reverse ++ p.reverse := by
    have := congrArg List.reverse hl
    simpa [List.reverse_append] using this
  have hsel : msgsLen p.reverse = msgsLen p := by
    simp [msgsLen, List.map_reverse, List.sum_reverse]
  refine ⟨q.reverse, p.reverse, hmsgs, ?_, ?_, ?_⟩
  · simp only [build_context_messages, h]
    rw [hloop]
    simp [List.map_reverse]
  · rw [hsel]; omega
  · rcases hq with hq | ⟨m, q', hq, hover⟩
    · exact Or.inl (by simp [hq])
    · refine Or.inr ⟨q'.reverse, m, by simp [hq], ?_⟩
      rw [hsel]; omega

/-- Witness for C3 at a concrete store: a conversation with two short
messages, both of which fit the budget. -/
def convW3 : Conversation :=
  { id := "conv-3", created_at := "t0",
    messages := [mkMessage "user" "hi" "t1" none, mkMessage "assistant" "hello" "t2" none] }

def storeW3 : Store := [("conv-3", convW3)]

theorem build_context_messages_budget_witness :
    storeW3.findConv "conv-3" = some convW3 ∧
    ∃ older sel,
      convW3.messages = older ++ sel ∧
      build_context_messages storeW3 "conv-3" true =
        (if true then [⟨"system", system_prompt⟩] else []) ++ sel.map projCtx ∧
      msgsLen sel ≤ max_context_length ∧
      (older = [] ∨ ∃ older' m, older = older' ++ [m] ∧
        msgsLen sel + m.content.length > max_context_length) :=
  ⟨by decide, build_context_messages_budget storeW3 "conv-3" convW3 true (by decide)⟩

/-! ## C5: operations on an unknown conversation id -/

/-- C5 counterexample: on an unknown id, `build_context_messages` with
`include_system = true` (the caller-facing default) returns a one-element
list holding the system prompt — not false, not an empty list, not none. -/
theorem build_context_messages_unknown_id_nonempty :
    build_context_messages [] "missing" true = [⟨"system", system_prompt⟩] ∧
    build_context_messages [] "missing" true ≠ [] := by
  refine ⟨rfl, ?_⟩
  simp [build_context_messages, Store.findConv]

/-- C5 amended: every listed operation invoked with an unknown conversation
id leaves the store unchanged and never raises (each is total); `add`,
`clear` and `delete` return `false`, `get_conversation_history` returns the
empty list, `get_conversation_stats` returns none — and
`build_context_messages` returns only the optional system prompt, with no
history messages. -/
theorem unknown_id_operations (s : Store) (cid : String)
    (r c now : String) (so : Option (List Source)) (ml : Option Nat) (inc : Bool)
    (h : s.findConv cid = none) :
    add_message s cid r c so now = (false, s) ∧
    get_conversation_history s cid ml = [] ∧
    build_context_messages s cid inc =
      (if inc then [⟨"system", system_prompt⟩] else []) ∧
    clear_conversation s cid = (false, s) ∧
    delete_conversation s cid = (false, s) ∧
    get_conversation_stats s cid = none := by
  refine ⟨?_, ?_, ?_, ?_, ?_, ?_⟩ <;>
    simp [add_message, get_conversation_history, build_context_messages,
      clear_conversation, delete_conversation, get_conversation_stats, h]

theorem unknown_id_operations_witness :
    (storeW1.findConv "nope" = none) ∧
    (add_message storeW1 "nope" "user" "x" none "t9" = (false, storeW1) ∧
     get_conversation_history storeW1 "nope" (some 4) = [] ∧
     build_context_messages storeW1 "nope" false =
       (if false then [⟨"system", system_prompt⟩] else []) ∧
     clear_conversation storeW1 "nope" = (false, storeW1) ∧
     delete_conversation storeW1 "nope" = (false, storeW1) ∧
     get_conversation_stats storeW1 "nope" = none) :=
  ⟨by decide,
   unknown_id_operations storeW1 "nope" "user" "x" "t9" none (some 4) false (by decide)⟩

/-! ## C7: query-rewrite failure falls back to the original question -/

/-- C7: whenever query reformulation cannot be performed — no language
model client, or the model call raises — `rewrite_query` returns the
original question unchanged; it is a total function, so no exception
reaches its caller, and the retrieval query equals the original
question. -/
theorem rewrite_query_failure_fallback (q : String) (res : Except String String) :
    rewrite_query false res q = q ∧ (∀ e, rewrite_query true (Except.error e) q = q) := by
  exact ⟨by simp [rewrite_query], fun e => by simp [rewrite_query]⟩

/-! ## C6: the zero-candidate path of `answer` -/

/-- C6: with both services available, when retrieval returns zero
candidates `answer` appends exactly two messages to the conversation — the
user question followed by the fixed apology — and returns the apology as
answer with an empty source list, the conversation id, and the non-empty
error string "No relevant papers found".  (The history-gain count is stated
under the `add_message` trim bound of C1: the history must have room for
two more messages, which in particular covers a fresh conversation.) -/
theorem answer_no_results (env : AgentEnv) (s : Store) (question cid : String)
    (conv : Conversation) (k : Nat) (ew er : Bool)
    (hc : env.hasClient = true) (hi : env.indexAvailable = true)
    (hs : env.searchResult = Except.ok [])
    (hconv : s.findConv cid = some conv)
    (hlen : conv.messages.length + 2 ≤ max_history_length * 2) :
    (answer env s question (some cid) k ew er).1 =
      { answer := apologyMessage, sources := [], conversation_id := some cid,
        rewritten_query := none, error := some "No relevant papers found" } ∧
    ∃ conv', (answer env s question (some cid) k ew er).2.findConv cid = some conv' ∧
      conv'.messages = conv.messages ++
        [mkMessage "user" question env.now none,
         mkMessage "assistant" apologyMessage env.now none] ∧
      conv'.messages.length = conv.messages.length + 2 := by
  have hl1 : (conv.messages ++ [mkMessage "user" question env.now none]).length ≤
      max_history_length * 2 := by
    simp only [List.length_append, List.length_cons, List.length_nil]; omega
  have h1 : (add_message s cid "user" question none env.now).2 =
      s.setKey cid { conv with
        messages := conv.messages ++ [mkMessage "user" question env.now none] } := by
    simp [add_message, hconv, trimMessages_of_length_le hl1]
  have hfind1 : (s.setKey cid { conv with
      messages := conv.messages ++ [mkMessage "user" question env.now none] }).findConv cid
      = some { conv with
        messages := conv.messages ++ [mkMessage "user" question env.now none] } :=
    Store.findConv_setKey_self ..
  have hl2 : (conv.messages ++ [mkMessage "user" question env.now none,
      mkMessage "assistant" apologyMessage env.now none]).length ≤
      max_history_length * 2 := by
    simp only [List.length_append, List.length_cons, List.length_nil]; omega
  have h2 : (add_message (s.setKey cid { conv with
        messages := conv.messages ++ [mkMessage "user" question env.now none] })
        cid "assistant" apologyMessage none env.now).2 =
      (s.setKey cid { conv with
        messages := conv.messages ++ [mkMessage "user" question env.now none] }).setKey cid
        { conv with
          messages := conv.messages ++ [mkMessage "user" question env.now none,
            mkMessage "assistant" apologyMessage env.now none] } := by
    simp [add_message, hfind1, trimMessages_of_length_le hl2]
  have hans : (answer env s question (some cid) k ew er).2 =
      (s.setKey cid { conv with
        messages := conv.messages ++ [mkMessage "user" question env.now none] }).setKey cid
        { conv with
          messages := conv.messages ++ [mkMessage "user" question env.now none,
            mkMessage "assistant" apologyMessage env.now none] } := by
    simp [answer, hc, hi, hs, h1, h2]
  constructor
  · simp [answer, hc, hi, hs]
  · refine ⟨{ conv with
      messages := conv.messages ++ [mkMessage "user" question env.now none,
        mkMessage "assistant" apologyMessage env.now none] }, ?_, rfl, ?_⟩
    · rw [hans]
      exact Store.findConv_setKey_self ..
    · simp only [List.length_append, List.length_cons, List.length_nil]

/-- Environment for the C6 witness: services up, retrieval returns zero
candidates. -/
def envW6 : AgentEnv :=
  { hasClient := true, indexAvailable := true, rewriteResult := Except.ok "rw",
    searchResult := Except.ok [], rerankResult := Except.ok "",
    chatResult := Except.ok "", chatChunks := [], chatStreamError := none,
    newConvId := "new-6", now := "t9" }

theorem answer_no_results_witness :
    envW6.hasClient = true ∧ envW6.indexAvailable = true ∧
    envW6.searchResult = Except.ok [] ∧
    storeW1.findConv "conv-1" = some convW1 ∧
    convW1.messages.length + 2 ≤ max_history_length * 2 ∧
    ((answer envW6 storeW1 "q?" (some "conv-1") 2 false false).1 =
      { answer := apologyMessage, sources := [], conversation_id := some "conv-1",
        rewritten_query := none, error := some "No relevant papers found" } ∧
    ∃ conv', (answer envW6 storeW1 "q?" (some "conv-1") 2 false false).2.findConv "conv-1"
        = some conv' ∧
      conv'.messages = convW1.messages ++
        [mkMessage "user" "q?" envW6.now none,
         mkMessage "assistant" apologyMessage envW6.now none] ∧
      conv'.messages.length = convW1.messages.length + 2) :=
  ⟨rfl, rfl, rfl, by decide, by decide,
   answer_no_results envW6 storeW1 "q?" "conv-1" convW1 2 false false
     rfl rfl rfl (by decide) (by decide)⟩

/-! ## C2: the rerank parsing contract -/

/-- C2: when the candidate count exceeds `top_k` (and a client exists), the
model's response is stripped, split on commas and parsed by the
comprehension `[int(x.strip()) - 1 for x in result.split(',')]`; out-of-range
indices are filtered out; if at least one valid index survives the output is
the corresponding candidates in the model's order truncated to `top_k`;
if parsing fails (any unparseable token — in particular a fully unparseable
response such as "abc"), or no valid index survives, or the model call
raises, the output is the original candidate list truncated to `top_k`. -/
theorem rerank_parsing_contract (cands : List Candidate) (k : Nat) (q : String)
    (hk : k < cands.length) :
    (∀ e, rerank_results true (Except.error e) q cands k = cands.take k) ∧
    (∀ res, parseIndices (pyStrip res) = none →
      rerank_results true (Except.ok res) q cands k = cands.take k) ∧
    (∀ res idxs, parseIndices (pyStrip res) = some idxs →
      (idxs.filter (fun i => decide (0 ≤ i) && decide (i < (cands.length : Int))) = [] →
        rerank_results true (Except.ok res) q cands k = cands.take k) ∧
      (∀ i0 rest,
        idxs.filter (fun i => decide (0 ≤ i) && decide (i < (cands.length : Int)))
          = i0 :: rest →
        rerank_results true (Except.ok res) q cands k =
          ((i0 :: rest).filterMap (fun i => cands[i.toNat]?)).take k)) ∧
    rerank_results true (Except.ok "abc") q cands k = cands.take k := by
  have hcond : ¬(true = false ∨ cands.length ≤ k) := by simp; omega
  have habc : parseIndices (pyStrip "abc") = none := by decide
  have herr : ∀ e, rerank_results true (Except.error e) q cands k = cands.take k := by
    intro e; simp only [rerank_results, if_neg hcond]
  have hnone : ∀ res, parseIndices (pyStrip res) = none →
      rerank_results true (Except.ok res) q cands k = cands.take k := by
    intro res hres
    simp only [rerank_results, if_neg hcond, hres]
  refine ⟨herr, hnone, ?_, hnone "abc" habc⟩
  intro res idxs hres
  constructor
  · intro hempty
    simp only [rerank_results, if_neg hcond, hres, hempty]
    simp
  · intro i0 rest hvalid
    simp only [rerank_results, if_neg hcond, hres, hvalid]
    simp

/-- Witness for C2: three candidates, `top_k = 2`; additionally evaluates
the contract on the spec's own examples — response "2,1,3" reranks to
candidates 2,1 and the unparseable "abc" falls back to the first two. -/
def candT1 : Candidate :=
  { id := "P1", title := "T1", authors := "A1", categories := "c1",
    pdf_url := "u1", published := "d1", document := "doc1", distance := some (mkRat 1 10) }

def candT2 : Candidate :=
  { id := "P2", title := "T2", authors := "A2", categories := "c2",
    pdf_url := "u2", published := "d2", document := "doc2", distance := some (mkRat 2 10) }

def candT3 : Candidate :=
  { id := "P3", title := "T3", authors := "A3", categories := "c3",
    pdf_url := "u3", published := "d3", document := "doc3", distance := some (mkRat 3 10) }

def candsW2 : List Candidate := [candT1, candT2, candT3]

theorem rerank_parsing_contract_witness :
    2 < candsW2.length ∧
    ((∀ e, rerank_results true (Except.error e) "q" candsW2 2 = candsW2.take 2) ∧
     (∀ res, parseIndices (pyStrip res) = none →
       rerank_results true (Except.ok res) "q" candsW2 2 = candsW2.take 2) ∧
     (∀ res idxs, parseIndices (pyStrip res) = some idxs →
       (idxs.filter (fun i => decide (0 ≤ i) && decide (i < (candsW2.length : Int))) = [] →
         rerank_results true (Except.ok res) "q" candsW2 2 = candsW2.take 2) ∧
       (∀ i0 rest,
         idxs.filter (fun i => decide (0 ≤ i) && decide (i < (candsW2.length : Int)))
           = i0 :: rest →
         rerank_results true (Except.ok res) "q" candsW2 2 =
           ((i0 :: rest).filterMap (fun i => candsW2[i.toNat]?)).take 2)) ∧
     rerank_results true (Except.ok "abc") "q" candsW2 2 = candsW2.take 2) ∧
    rerank_results true (Except.ok "2,1,3") "q" candsW2 2 = [candT2, candT1] ∧
    rerank_results true (Except.ok "abc") "q" candsW2 2 = [candT1, candT2] :=
  ⟨by decide, rerank_parsing_contract candsW2 2 "q" (by decide), by decide, by decide⟩

/-! ## C10: rerank output is a bounded selection of its input -/

/-- C10: on every branch of `rerank_results` — no client, candidate count
at most `top_k`, successful rerank, parse failure, or model-call failure —
the returned list has at most `top_k` entries and each entry is an element
of the input candidate list; the embedding is a pure function of the input
list, which the Python code also never mutates (it only reads and
slices). -/
theorem rerank_results_bounded_selection (hc : Bool) (res : Except String String)
    (q : String) (cands : List Candidate) (k : Nat) :
    (rerank_results hc res q cands k).length ≤ k ∧
    ∀ c ∈ rerank_results hc res q cands k, c ∈ cands := by
  have htake : (cands.take k).length ≤ k ∧ ∀ c ∈ cands.take k, c ∈ cands :=
    ⟨by rw [List.length_take]; omega, fun c hm => List.take_subset _ _ hm⟩
  have hpick : ∀ valid : List Int,
      ((valid.filterMap (fun i => cands[i.toNat]?)).take k).length ≤ k ∧
      ∀ c ∈ (valid.filterMap (fun i => cands[i.toNat]?)).take k, c ∈ cands := by
    intro valid
    refine ⟨by rw [List.length_take]; omega, fun c hm => ?_⟩
    obtain ⟨i, _, hget⟩ := List.mem_filterMap.mp (List.take_subset _ _ hm)
    exact List.getElem?_mem hget
  simp only [rerank_results]
  split
  · exact htake
  · split
    · exact htake
    · split
      · exact htake
      · split
        · exact hpick _
        · exact htake

/-! ## C4: relevance formatting in `_format_sources` -/

/-- A candidate whose distance score is exactly `0.0` — inside `[0, 2]`. -/
def candZero : Candidate :=
  { id := "P0", title := "T0", authors := "A0", categories := "c0",
    pdf_url := "u0", published := "d0", document := "doc0", distance := some 0 }

/-- C4 counterexample: `candZero` carries the distance `0.0 ∈ [0, 2]`, so by
the claim its relevance would be `(1 − 0) × 100` formatted as "100.0%"; the
code renders "N/A" instead, because `if paper.get('distance')` is false at
`0.0` (Python truthiness), not only when the distance is absent. -/
theorem format_sources_zero_distance_counterexample :
    candZero.distance = some 0 ∧ ((0:ℚ) ≤ 0 ∧ (0:ℚ) ≤ 2) ∧
    (format_sources [candZero]).map Source.relevance = ["N/A"] ∧
    pyFormat1f ((1 - (0:ℚ)) * 100) ++ "%" = "100.0%" ∧
    ("N/A" : String) ≠ "100.0%" := by
  refine ⟨rfl, by constructor <;> decide, by decide, ?_, by decide⟩
  have h : (1 - (0:ℚ)) * 100 = mkRat 100 1 := by
    rw [Rat.mkRat_eq_div]; norm_num
  rw [h]; decide

/-- C4 amended: for every candidate whose distance score is present and
nonzero, the produced Source's relevance is `(1 − distance) × 100`
formatted to one decimal place with a percent sign; a candidate with no
distance score, or with distance exactly `0`, yields "N/A". -/
theorem format_sources_relevance (papers : List Candidate) (j : Nat) (c : Candidate)
    (hj : papers[j]? = some c) :
    ∃ src, (format_sources papers)[j]? = some src ∧
      src.id = c.id ∧ src.title = c.title ∧ src.authors = c.authors ∧
      src.pdf_url = c.pdf_url ∧ src.published = c.published ∧
      (∀ d, c.distance = some d → d ≠ 0 →
        src.relevance = pyFormat1f ((1 - d) * 100) ++ "%") ∧
      ((c.distance = none ∨ c.distance = some 0) → src.relevance = "N/A") := by
  refine ⟨_, by rw [format_sources, List.getElem?_map, hj]; rfl, rfl, rfl,
    rfl, rfl, rfl, ?_, ?_⟩
  · intro d hd hd0
    simp [hd, hd0]
  · rintro (hd | hd) <;> simp [hd]

/-- Witness for C4 at a concrete candidate with distance `0.3`:
relevance = `(1 − 0.3) × 100` = "70.0%", matching the spec's worked
example. -/
def candW4 : Candidate :=
  { id := "P3", title := "T3w", authors := "A3w", categories := "c3w",
    pdf_url := "u3w", published := "d3w", document := "doc3w",
    distance := some (mkRat 3 10) }

theorem format_sources_relevance_witness :
    ([candW4] : List Candidate)[0]? = some candW4 ∧
    (∃ src, (format_sources [candW4])[0]? = some src ∧
      src.id = candW4.id ∧ src.title = candW4.title ∧ src.authors = candW4.authors ∧
      src.pdf_url = candW4.pdf_url ∧ src.published = candW4.published ∧
      (∀ d, candW4.distance = some d → d ≠ 0 →
        src.relevance = pyFormat1f ((1 - d) * 100) ++ "%") ∧
      ((candW4.distance = none ∨ candW4.distance = some 0) → src.relevance = "N/A")) ∧
    (format_sources [candW4]).map Source.relevance = ["70.0%"] := by
  refine ⟨rfl, format_sources_relevance [candW4] 0 candW4 rfl, ?_⟩
  have h : (1 - (mkRat 3 10 : ℚ)) * 100 = mkRat 70 1 := by
    rw [Rat.mkRat_eq_div, Rat.mkRat_eq_div]; norm_num
  have h2 : (format_sources [candW4]).map Source.relevance =
      [pyFormat1f ((1 - (mkRat 3 10 : ℚ)) * 100) ++ "%"] := by
    simp [format_sources, candW4]
  rw [h2, h]; decide

/-! ## C8: presence of `conversation_id` in `answer` results -/

/-- Environment in which the language-model client is unconfigured. -/
def envNoClient : AgentEnv :=
  { hasClient := false, indexAvailable := true, rewriteResult := Except.ok "",
    searchResult := Except.ok [], rerankResult := Except.ok "",
    chatResult := Except.ok "", chatChunks := [], chatStreamError := none,
    newConvId := "n8", now := "t8" }

/-- C8 counterexample: on the service-unavailable path the dict returned by
`answer` has no `conversation_id` key at all (it holds only answer, sources
and error), refuting the claim that every returned map carries one. -/
theorem answer_conversation_id_missing_counterexample :
    (answer envNoClient [] "q" none 5 true true).1.conversation_id = none ∧
    (answer envNoClient [] "q" none 5 true true).1.answer =
      "❌ 问答服务不可用，请配置 MS_API_KEY" ∧
    (answer envNoClient [] "q" none 5 true true).1.error =
      some "LLM service unavailable" := by
  refine ⟨rfl, rfl, rfl⟩

/-- C8 amended: once both availability checks pass, every map returned by
`answer` — success, no-candidates, and exception paths alike — carries a
`conversation_id`; only the two service-unavailable early returns omit it,
returning just answer, sources and error. -/
theorem answer_conversation_id_present (env : AgentEnv) (s : Store) (q : String)
    (cid : Option String) (k : Nat) (ew er : Bool)
    (hc : env.hasClient = true) (hi : env.indexAvailable = true) :
    ((answer env s q cid k ew er).1.conversation_id).isSome = true := by
  simp only [answer, hc, hi]
  rw [if_neg (by simp), if_neg (by simp)]
  rcases cid with _ | c
  all_goals
    rcases hsr : env.searchResult with e | papers
    · simp [hsr, answerExceptPath, create_conversation]
    · cases hemp : papers.isEmpty
      case false =>
        rcases hcr : env.chatResult with e' | ans
        · simp [hsr, hemp, hcr, answerExceptPath, create_conversation]
        · simp [hsr, hemp, hcr, create_conversation]
      case true => simp [hsr, hemp, create_conversation]

theorem answer_conversation_id_present_witness :
    envW6.hasClient = true ∧ envW6.indexAvailable = true ∧
    ((answer envW6 storeW1 "q" (some "conv-1") 5 true true).1.conversation_id).isSome
      = true :=
  ⟨rfl, rfl,
   answer_conversation_id_present envW6 storeW1 "q" (some "conv-1") 5 true true rfl rfl⟩

/-! ## C9: event sequences of `answer_stream` -/

/-- The event-sequence shape asserted by the claim: either a single error
event and nothing else, or exactly one sources event followed by zero or
more answer events. -/
def claimedStreamShape (evs : List Event) : Prop :=
  (∃ e, evs = [Event.error e]) ∨
  (∃ src c answers, (∀ a ∈ answers, ∃ t, a = Event.answer t) ∧
    evs = Event.sources src c :: answers)

/-- The conversation of the C9 scenario. -/
def convW9 : Conversation := { id := "c9", created_at := "t0", messages := [] }

/-- A candidate without a distance score, retrieved in the C9 scenario. -/
def candW9 : Candidate :=
  { id := "P9", title := "T9", authors := "A9", categories := "c9",
    pdf_url := "u9", published := "d9", document := "doc9", distance := none }

/-- Environment in which the streaming completion raises before yielding
any delta (services up, retrieval succeeds with one candidate). -/
def envW9 : AgentEnv :=
  { hasClient := true, indexAvailable := true, rewriteResult := Except.ok "r",
    searchResult := Except.ok [candW9], rerankResult := Except.ok "",
    chatResult := Except.ok "", chatChunks := [], chatStreamError := some "boom",
    newConvId := "n9", now := "t9" }

/-- C9 counterexample: when the model stream raises after the sources event
was already yielded, the generator's `except` handler emits a trailing
error event, producing the sequence `[sources, error]` — neither a single
error event nor a sources event followed only by answer events. -/
theorem answer_stream_shape_counterexample :
    (answer_stream envW9 [("c9", convW9)] "q" (some "c9") 5).1 =
      [Event.sources (format_sources [candW9]) "c9", Event.error "boom"] ∧
    ¬ claimedStreamShape (answer_stream envW9 [("c9", convW9)] "q" (some "c9") 5).1 := by
  have h : (answer_stream envW9 [("c9", convW9)] "q" (some "c9") 5).1 =
      [Event.sources (format_sources [candW9]) "c9", Event.error "boom"] := by decide
  refine ⟨h, ?_⟩
  rw [h]
  rintro (⟨e, he⟩ | ⟨src, c, answers, hall, hshape⟩)
  · simp at he
  · have hans : answers = [Event.error "boom"] := by
      simpa using (congrArg List.tail hshape).symm
    obtain ⟨t, ht⟩ := hall (Event.error "boom") (by simp [hans])
    simp at ht

/-- C9 amended: every event sequence produced by `answer_stream` is either
a single error event, or one sources event followed by zero or more answer
events, optionally terminated by one final error event when the model
stream raises mid-generation; in the single-error case (service
unavailable, retrieval raised, or zero candidates) no message is appended
to any existing conversation — at most a fresh empty conversation is
created under `env.newConvId`. -/
theorem answer_stream_event_shape (env : AgentEnv) (s : Store) (q : String)
    (cid : Option String) (k : Nat) :
    ((∃ e, (answer_stream env s q cid k).1 = [Event.error e]) ∨
     (∃ src c answers, (∀ a ∈ answers, ∃ t, a = Event.answer t) ∧
       ((answer_stream env s q cid k).1 = Event.sources src c :: answers ∨
        ∃ e, (answer_stream env s q cid k).1 =
          Event.sources src c :: answers ++ [Event.error e]))) ∧
    (∀ e, (answer_stream env s q cid k).1 = [Event.error e] →
      ∀ id conv, s.findConv id = some conv → id ≠ env.newConvId →
        (answer_stream env s q cid k).2.findConv id = some conv) := by
  by_cases hc : env.hasClient = false ∨ env.indexAvailable = false
  · unfold answer_stream
    rw [if_pos hc]
    exact ⟨Or.inl ⟨"服务不可用", rfl⟩, fun e he id conv hid hne => hid⟩
  · unfold answer_stream
    rw [if_neg hc]
    have hall : ∀ l : List String, ∀ a ∈ (l.filter (fun c => decide (c ≠ ""))).map
        Event.answer, ∃ t, a = Event.answer t := by
      intro l a ha
      obtain ⟨t, _, rfl⟩ := List.mem_map.mp ha
      exact ⟨t, rfl⟩
    have hs1find : ∀ id conv, s.findConv id = some conv → id ≠ env.newConvId →
        ((match cid with
          | some c => (c, s)
          | none => create_conversation s env.newConvId env.now)).2.findConv id
          = some conv := by
      intro id conv hid hne
      rcases cid with _ | c
      · show (Store.setKey s env.newConvId _).findConv id = some conv
        rw [Store.findConv_setKey_ne s env.newConvId id _ hne]; exact hid
      · exact hid
    rcases hsr : env.searchResult with e | papers
    · simp only [hsr]
      exact ⟨Or.inl ⟨e, rfl⟩, fun e' he' id conv hid hne => hs1find id conv hid hne⟩
    · simp only [hsr]
      cases hemp : papers.isEmpty with
      | true =>
        rw [if_pos rfl]
        exact ⟨Or.inl ⟨"没有找到相关论文", rfl⟩,
          fun e' he' id conv hid hne => hs1find id conv hid hne⟩
      | false =>
        rw [if_neg (by simp)]
        rcases hse : env.chatStreamError with _ | e
        · simp only [hse]
          refine ⟨Or.inr ⟨format_sources papers, _, _, hall env.chatChunks,
            Or.inl rfl⟩, ?_⟩
          intro e' he'
          simp at he'
        · simp only [hse]
          refine ⟨Or.inr ⟨format_sources papers, _, _, hall env.chatChunks,
            Or.inr ⟨e, rfl⟩⟩, ?_⟩
          intro e' he'
          simp at he'

end ArxivQA
